import Mathlib

/-!
Shallow embedding of the CHIP-8 state core (src/core/chip8.rs), the
framebuffer renderer (src/display.rs) and the tone generator (src/audio.rs).

Rust arrays are embedded as total functions `Nat → _` written with
`Function.update`; every guarded mutating method `fn f(&mut self, ..) ->
Result<bool, E>` becomes a Lean function `Chip8 → .. → Except E Bool × Chip8`
returning the result together with the post-state, and every getter becomes
`Chip8 → .. → Except E _`.  Machine integers (u8/u16/usize) are embedded as
`Nat`: none of the embedded operations performs wrapping arithmetic (the only
subtractions are guarded by positivity tests), so no `% 2^w` is needed.
-/

/-- Error enum of src/core/chip8.rs. -/
inductive Chip8Error where
  | PCOutOfBounds
  | IOutOfBounds
  | InvalidMemoryAccess
  | StackOverflow
  | StackUnderflow
  | InvalidRegisterAccess
  | InvalidPixelAccess
  | InvalidPixelValue
  | InvalidKeyAccess
deriving DecidableEq, Repr

/-- The machine state of src/core/chip8.rs (struct Chip8). -/
structure Chip8 where
  pc : Nat
  v : Nat → Nat
  sp : Nat
  stack : Nat → Nat
  i : Nat
  ram : Nat → Nat
  display : Nat → Nat
  keyboard : Nat → Bool
  dt : Nat
  st : Nat

/-- Chip8::new. -/
def Chip8.new : Chip8 where
  pc := 0x200
  v := fun _ => 0
  sp := 0
  stack := fun _ => 0
  i := 0
  ram := fun _ => 0
  display := fun _ => 0
  keyboard := fun _ => false
  dt := 0
  st := 0

/-- Chip8::push_stack. -/
def Chip8.push_stack (s : Chip8) (value : Nat) : Except Chip8Error Bool × Chip8 :=
  if s.sp ≥ 16 then
    (.error .StackOverflow, s)
  else
    (.ok true, { s with stack := Function.update s.stack s.sp value, sp := s.sp + 1 })

/-- Chip8::pop_stack. -/
def Chip8.pop_stack (s : Chip8) : Except Chip8Error Bool × Chip8 :=
  if s.sp = 0 then
    (.error .StackUnderflow, s)
  else
    (.ok true, { s with sp := s.sp - 1 })

/-- Chip8::set_pc.  Note: the source tests `self.pc > 4094`, i.e. the value
already stored, before assigning the incoming one. -/
def Chip8.set_pc (s : Chip8) (value : Nat) : Except Chip8Error Bool × Chip8 :=
  if s.pc > 4094 then
    (.error .PCOutOfBounds, s)
  else
    (.ok true, { s with pc := value })

/-- Chip8::set_i.  Note: the source assigns `self.i = value` first and only
then tests `self.i >= 4096`, so the failing branch returns a mutated state. -/
def Chip8.set_i (s : Chip8) (value : Nat) : Except Chip8Error Bool × Chip8 :=
  let s1 := { s with i := value }
  if s1.i ≥ 4096 then
    (.error .IOutOfBounds, s1)
  else
    (.ok true, s1)

/-- Chip8::get_ram. -/
def Chip8.get_ram (s : Chip8) (index : Nat) : Except Chip8Error Nat :=
  if index ≥ 4096 then .error .InvalidMemoryAccess else .ok (s.ram index)

/-- Chip8::set_ram. -/
def Chip8.set_ram (s : Chip8) (index value : Nat) : Except Chip8Error Bool × Chip8 :=
  if index ≥ 4096 then
    (.error .InvalidMemoryAccess, s)
  else
    (.ok true, { s with ram := Function.update s.ram index value })

/-- Chip8::get_v. -/
def Chip8.get_v (s : Chip8) (index : Nat) : Except Chip8Error Nat :=
  if index ≥ 16 then .error .InvalidRegisterAccess else .ok (s.v index)

/-- Chip8::set_v. -/
def Chip8.set_v (s : Chip8) (index value : Nat) : Except Chip8Error Bool × Chip8 :=
  if index ≥ 16 then
    (.error .InvalidRegisterAccess, s)
  else
    (.ok true, { s with v := Function.update s.v index value })

/-- Chip8::get_pixel. -/
def Chip8.get_pixel (s : Chip8) (index : Nat) : Except Chip8Error Nat :=
  if index ≥ 64 * 32 then .error .InvalidPixelAccess else .ok (s.display index)

/-- Chip8::set_pixel. -/
def Chip8.set_pixel (s : Chip8) (index value : Nat) : Except Chip8Error Bool × Chip8 :=
  if index ≥ 64 * 32 then
    (.error .InvalidPixelAccess, s)
  else
    if value = 1 ∨ value = 0 then
      (.ok true, { s with display := Function.update s.display index value })
    else
      (.error .InvalidPixelValue, s)

/-- Chip8::get_key_state. -/
def Chip8.get_key_state (s : Chip8) (index : Nat) : Except Chip8Error Bool :=
  if index ≥ 16 then .error .InvalidKeyAccess else .ok (s.keyboard index)

/-- Chip8::set_key_state. -/
def Chip8.set_key_state (s : Chip8) (index : Nat) (value : Bool) :
    Except Chip8Error Bool × Chip8 :=
  if index ≥ 16 then
    (.error .InvalidKeyAccess, s)
  else
    (.ok true, { s with keyboard := Function.update s.keyboard index value })

/-- Chip8::set_dt. -/
def Chip8.set_dt (s : Chip8) (value : Nat) : Chip8 := { s with dt := value }

/-- Chip8::set_st. -/
def Chip8.set_st (s : Chip8) (value : Nat) : Chip8 := { s with st := value }

/-- Chip8::decrease_timers. -/
def Chip8.decrease_timers (s : Chip8) : Chip8 :=
  { s with st := if s.st > 0 then s.st - 1 else s.st,
           dt := if s.dt > 0 then s.dt - 1 else s.dt }

/-- `n` consecutive calls to Chip8::decrease_timers (the loop of the
test_timers test). -/
def Chip8.tickN : Nat → Chip8 → Chip8
  | 0, s => s
  | n + 1, s => Chip8.tickN n s.decrease_timers

/-- Pushing a list of values one by one with Chip8::push_stack, stopping at
the first error (the loop of the test_stack_full_cycle test). -/
def Chip8.pushList : Chip8 → List Nat → Except Chip8Error Chip8
  | s, [] => .ok s
  | s, value :: rest =>
    match s.push_stack value with
    | (.ok _, s1) => s1.pushList rest
    | (.error e, _) => .error e

/-- `n` consecutive calls to Chip8::pop_stack, stopping at the first error. -/
def Chip8.popN : Chip8 → Nat → Except Chip8Error Chip8
  | s, 0 => .ok s
  | s, n + 1 =>
    match s.pop_stack with
    | (.ok _, s1) => s1.popN n
    | (.error e, _) => .error e

/-! ## Framebuffer renderer (src/display.rs)

The `window` field and the final `update_with_buffer` call are device I/O and
stay outside the embedding; `render` is embedded as the transformation it
performs on the `buffer` field.  Each `for` loop of Display::render becomes a
`List.range` fold, innermost first. -/

/-- const SCALE of src/display.rs. -/
def SCALE : Nat := 20

/-- const WIDTH of src/display.rs. -/
def WIDTH : Nat := 64 * SCALE

/-- const HEIGHT of src/display.rs. -/
def HEIGHT : Nat := 32 * SCALE

/-- The innermost loop of Display::render: `for dx in 0..SCALE` writes `color`
at `start + dx` where `start = (y*SCALE+dy)*WIDTH + x*SCALE`. -/
def fillRow (color start : Nat) (buf : Nat → Nat) : Nat → Nat :=
  (List.range SCALE).foldl (fun b dx => Function.update b (start + dx) color) buf

/-- The `for dy in 0..SCALE` loop of Display::render for logical pixel (x,y). -/
def fillBlock (color y x : Nat) (buf : Nat → Nat) : Nat → Nat :=
  (List.range SCALE).foldl
    (fun b dy => fillRow color ((y * SCALE + dy) * WIDTH + x * SCALE) b) buf

/-- The `for x in 0..64` loop of Display::render: per logical pixel the color
is 0xFFB000 when the pixel is 1 and 0x000000 otherwise. -/
def fillLine (disp : Nat → Nat) (y : Nat) (buf : Nat → Nat) : Nat → Nat :=
  (List.range 64).foldl
    (fun b x =>
      fillBlock (if disp (y * 64 + x) = 1 then 0xFFB000 else 0x000000) y x b) buf

/-- The full `for y in 0..32` loop body of Display::render on the buffer. -/
def renderBuffer (disp : Nat → Nat) (buf : Nat → Nat) : Nat → Nat :=
  (List.range 32).foldl (fun b y => fillLine disp y b) buf

/-- Error enum of src/display.rs. -/
inductive DisplayError where
  | InvalidPixelAccess
  | InvalidPixelValue
deriving DecidableEq, Repr

/-- The renderer state of src/display.rs (struct Display), minus the window
handle. -/
structure Display where
  display : Nat → Nat
  buffer : Nat → Nat

/-- Display::render, restricted to its effect on the buffer. -/
def Display.render (d : Display) : Display :=
  { d with buffer := renderBuffer d.display d.buffer }

/-- Display::get_pixel. -/
def Display.get_pixel (d : Display) (index : Nat) : Except DisplayError Nat :=
  if index ≥ 64 * 32 then .error .InvalidPixelAccess else .ok (d.display index)

/-- Display::set_pixel. -/
def Display.set_pixel (d : Display) (index value : Nat) :
    Except DisplayError Bool × Display :=
  if index ≥ 64 * 32 then
    (.error .InvalidPixelAccess, d)
  else if value = 1 ∨ value = 0 then
    (.ok true, { d with display := Function.update d.display index value })
  else
    (.error .InvalidPixelValue, d)

/-! ## Tone generator (src/audio.rs)

The rodio sink is embedded as the queue of waveforms it has been handed plus
its play/pause flag; an appended `SineWave::new(440.0)` source is represented
by its frequency.  `sink.empty()` is queue emptiness, `sink.append` pushes,
`sink.clear` empties, `sink.play`/`sink.pause` toggle the flag, and the
`beeping` AtomicBool is a plain Bool (the embedding is single-threaded, as is
the program's use of it). -/

/-- The tone generator state of src/audio.rs (struct Audio). -/
structure Audio where
  queue : List Nat
  playing : Bool
  beeping : Bool
deriving DecidableEq, Repr

/-- Audio::new: fresh sink, paused, nothing queued, beeping flag false. -/
def Audio.new : Audio where
  queue := []
  playing := false
  beeping := false

/-- Audio::start_beep. -/
def Audio.start_beep (a : Audio) : Audio :=
  let a1 := if a.queue.isEmpty then { a with beeping := false } else a
  if a1.beeping = false then
    { a1 with beeping := true, queue := a1.queue ++ [440], playing := true }
  else
    a1

/-- Audio::stop_beep. -/
def Audio.stop_beep (a : Audio) : Audio :=
  { a with playing := false, queue := [], beeping := false }

/-! ## Timer lemmas -/

/-- One decrease_timers call is a truncated decrement on the sound timer. -/
theorem Chip8.decrease_timers_st (s : Chip8) : s.decrease_timers.st = s.st - 1 := by
  simp only [Chip8.decrease_timers]
  split <;> omega

/-- One decrease_timers call is a truncated decrement on the delay timer. -/
theorem Chip8.decrease_timers_dt (s : Chip8) : s.decrease_timers.dt = s.dt - 1 := by
  simp only [Chip8.decrease_timers]
  split <;> omega

/-- `n` ticks subtract `n` (truncated) from the sound timer. -/
theorem Chip8.tickN_st (n : Nat) : ∀ s : Chip8, (Chip8.tickN n s).st = s.st - n := by
  induction n with
  | zero => intro s; rfl
  | succ k ih =>
    intro s
    rw [Chip8.tickN, ih, Chip8.decrease_timers_st]
    omega

/-- `n` ticks subtract `n` (truncated) from the delay timer. -/
theorem Chip8.tickN_dt (n : Nat) : ∀ s : Chip8, (Chip8.tickN n s).dt = s.dt - n := by
  induction n with
  | zero => intro s; rfl
  | succ k ih =>
    intro s
    rw [Chip8.tickN, ih, Chip8.decrease_timers_dt]
    omega

/-! ## Claim theorems -/

/-- C1: refuted on the code as written — Chip8::set_pc validates the program
counter already stored (`self.pc > 4094`), not the incoming value.  From the
initial state (pc = 0x200) the out-of-range value 4096 is accepted and stored,
and conversely once pc holds 4095 the in-range value 0 is rejected with the
program counter left at 4095. -/
theorem set_pc_checks_stored_value :
    (Chip8.new.set_pc 4096).1 = .ok true ∧
    (Chip8.new.set_pc 4096).2.pc = 4096 ∧
    (((Chip8.new.set_pc 4095).2).set_pc 0).1 = .error Chip8Error.PCOutOfBounds ∧
    (((Chip8.new.set_pc 4095).2).set_pc 0).2.pc = 4095 :=
  ⟨rfl, rfl, rfl, rfl⟩

/-- C2: refuted on the code as written — Chip8::set_i assigns `self.i = value`
before validating, so the failing call set_i 4096 reports IOutOfBounds yet
leaves the address register holding 4096 instead of its prior value 0. -/
theorem set_i_writes_before_validating :
    (Chip8.new.set_i 4096).1 = .error Chip8Error.IOutOfBounds ∧
    Chip8.new.i = 0 ∧
    (Chip8.new.set_i 4096).2.i = 4096 :=
  ⟨rfl, rfl, rfl⟩

/-- C3: refuted on the code as written — after the guarded operation
set_i 4096 on the initial state, the invariant `i < 4096` does not hold:
the write-then-validate body of Chip8::set_i leaves i = 4096. -/
theorem invariant_i_violated_after_guarded_op :
    (Chip8.new.set_i 4096).2.i = 4096 ∧ ¬ (Chip8.new.set_i 4096).2.i < 4096 :=
  ⟨rfl, by decide⟩

/-- C5: for every in-domain index (register index < 16, memory address < 4096,
pixel index < 2048 with value in {0,1}, key index < 16), the guarded setter
succeeds and the guarded getter at the same index returns the written value. -/
theorem write_read_roundtrip (s : Chip8) (idx val : Nat) (b : Bool) :
    (idx < 16 → (s.set_v idx val).1 = .ok true ∧
      (s.set_v idx val).2.get_v idx = .ok val) ∧
    (idx < 4096 → (s.set_ram idx val).1 = .ok true ∧
      (s.set_ram idx val).2.get_ram idx = .ok val) ∧
    (idx < 64 * 32 → (val = 1 ∨ val = 0) → (s.set_pixel idx val).1 = .ok true ∧
      (s.set_pixel idx val).2.get_pixel idx = .ok val) ∧
    (idx < 16 → (s.set_key_state idx b).1 = .ok true ∧
      (s.set_key_state idx b).2.get_key_state idx = .ok b) := by
  refine ⟨fun h => ?_, fun h => ?_, fun h hv => ?_, fun h => ?_⟩
  · simp [Chip8.set_v, Chip8.get_v, show ¬ idx ≥ 16 by omega]
  · simp [Chip8.set_ram, Chip8.get_ram, show ¬ idx ≥ 4096 by omega]
  · have hlt : ¬ idx ≥ 64 * 32 := by omega
    rcases hv with rfl | rfl <;> simp [Chip8.set_pixel, Chip8.get_pixel, hlt]
  · simp [Chip8.set_key_state, Chip8.get_key_state, show ¬ idx ≥ 16 by omega]

/-- C5 witness at register 3 ← 7, address 100 ← 7, pixel 5 ← 1, key 3 ← true
on the initial state. -/
theorem write_read_roundtrip_witness :
    ((Chip8.new.set_v 3 7).1 = .ok true ∧
      (Chip8.new.set_v 3 7).2.get_v 3 = .ok 7) ∧
    ((Chip8.new.set_ram 100 7).1 = .ok true ∧
      (Chip8.new.set_ram 100 7).2.get_ram 100 = .ok 7) ∧
    ((Chip8.new.set_pixel 5 1).1 = .ok true ∧
      (Chip8.new.set_pixel 5 1).2.get_pixel 5 = .ok 1) ∧
    ((Chip8.new.set_key_state 3 true).1 = .ok true ∧
      (Chip8.new.set_key_state 3 true).2.get_key_state 3 = .ok true) :=
  ⟨(write_read_roundtrip Chip8.new 3 7 true).1 (by decide),
   (write_read_roundtrip Chip8.new 100 7 true).2.1 (by decide),
   (write_read_roundtrip Chip8.new 5 1 true).2.2.1 (by decide) (by decide),
   (write_read_roundtrip Chip8.new 3 7 true).2.2.2 (by decide)⟩

/-- C6: every out-of-domain indexed write fails with the operation's typed
error and returns the machine state unchanged, and set_pixel at a valid index
with a value outside {0,1} fails with InvalidPixelValue, also leaving the
state unchanged. -/
theorem failed_writes_leave_state_unchanged (s : Chip8) (idx val : Nat) (b : Bool) :
    (idx ≥ 4096 → s.set_ram idx val = (.error Chip8Error.InvalidMemoryAccess, s)) ∧
    (idx ≥ 16 → s.set_v idx val = (.error Chip8Error.InvalidRegisterAccess, s)) ∧
    (idx ≥ 64 * 32 → s.set_pixel idx val = (.error Chip8Error.InvalidPixelAccess, s)) ∧
    (idx < 64 * 32 → val ≠ 1 → val ≠ 0 →
      s.set_pixel idx val = (.error Chip8Error.InvalidPixelValue, s)) ∧
    (idx ≥ 16 → s.set_key_state idx b = (.error Chip8Error.InvalidKeyAccess, s)) := by
  refine ⟨fun h => ?_, fun h => ?_, fun h => ?_, fun h hv1 hv0 => ?_, fun h => ?_⟩
  · simp [Chip8.set_ram, h]
  · simp [Chip8.set_v, h]
  · simp [Chip8.set_pixel, h]
  · simp [Chip8.set_pixel, show ¬ idx ≥ 64 * 32 by omega, hv1, hv0]
  · simp [Chip8.set_key_state, h]

/-- C6 witness: out-of-range writes at index 5000 (ram), 20 (registers, keys),
3000 (pixels) and the in-range pixel write of the invalid value 2 all fail and
leave the initial state unchanged. -/
theorem failed_writes_leave_state_unchanged_witness :
    Chip8.new.set_ram 5000 7 = (.error Chip8Error.InvalidMemoryAccess, Chip8.new) ∧
    Chip8.new.set_v 20 7 = (.error Chip8Error.InvalidRegisterAccess, Chip8.new) ∧
    Chip8.new.set_pixel 3000 1 = (.error Chip8Error.InvalidPixelAccess, Chip8.new) ∧
    Chip8.new.set_pixel 5 2 = (.error Chip8Error.InvalidPixelValue, Chip8.new) ∧
    Chip8.new.set_key_state 20 true = (.error Chip8Error.InvalidKeyAccess, Chip8.new) :=
  ⟨(failed_writes_leave_state_unchanged Chip8.new 5000 7 true).1 (by decide),
   (failed_writes_leave_state_unchanged Chip8.new 20 7 true).2.1 (by decide),
   (failed_writes_leave_state_unchanged Chip8.new 3000 1 true).2.2.1 (by decide),
   (failed_writes_leave_state_unchanged Chip8.new 5 2 true).2.2.2.1 (by decide)
     (by decide) (by decide),
   (failed_writes_leave_state_unchanged Chip8.new 20 7 true).2.2.2.2 (by decide)⟩

/-- C7: decrease_timers is a saturating decrement on both timers (x - 1 in
truncated natural subtraction: 1 less when positive, still 0 when 0), and
setting the delay timer to 250 and the sound timer to 150 and ticking 256
times leaves both timers at 0. -/
theorem timers_saturating_decrement (s : Chip8) :
    s.decrease_timers.dt = s.dt - 1 ∧
    s.decrease_timers.st = s.st - 1 ∧
    (Chip8.tickN 256 ((s.set_dt 250).set_st 150)).dt = 0 ∧
    (Chip8.tickN 256 ((s.set_dt 250).set_st 150)).st = 0 := by
  refine ⟨Chip8.decrease_timers_dt s, Chip8.decrease_timers_st s, ?_, ?_⟩
  · rw [Chip8.tickN_dt]
    simp [Chip8.set_dt, Chip8.set_st]
  · rw [Chip8.tickN_st]
    simp [Chip8.set_dt, Chip8.set_st]

/-- C9: start_beep while a tone is still queued and the state is Sounding is a
no-op (no stacked tone); from the fresh generator one start_beep enqueues
exactly one tone and leaves the sink non-empty, an immediate second start_beep
still leaves exactly one queued tone, and stop_beep followed by start_beep
enqueues exactly one new tone from any state. -/
theorem start_beep_no_overlap (a : Audio) :
    (a.queue ≠ [] → a.beeping = true → a.start_beep = a) ∧
    Audio.new.start_beep.queue = [440] ∧
    Audio.new.start_beep.beeping = true ∧
    Audio.new.start_beep.start_beep.queue.length = 1 ∧
    (∀ b : Audio, b.stop_beep.start_beep.queue.length = 1) := by
  refine ⟨fun hq hb => ?_, rfl, rfl, by decide, fun b => ?_⟩
  · have h1 : a.queue.isEmpty = false := by
      simpa [List.isEmpty_iff] using hq
    simp [Audio.start_beep, h1, hb]
  · simp [Audio.stop_beep, Audio.start_beep]

/-- C9 witness: the state after one start_beep from fresh has a non-empty sink
and is Sounding, and a second start_beep leaves it exactly as it is. -/
theorem start_beep_no_overlap_witness :
    Audio.new.start_beep.queue ≠ [] ∧
    Audio.new.start_beep.beeping = true ∧
    Audio.new.start_beep.start_beep = Audio.new.start_beep :=
  ⟨by decide, by decide,
   (start_beep_no_overlap Audio.new.start_beep).1 (by decide) (by decide)⟩

/-! ## Stack lemmas -/

/-- Characterization of pushing a whole list while room remains: every push
succeeds, the stack pointer advances by the list length, and each value lands
at the slot the pointer held when it was pushed. -/
theorem Chip8.pushList_spec :
    ∀ (vals : List Nat) (s : Chip8), s.sp + vals.length ≤ 16 →
      ∃ t : Chip8, s.pushList vals = .ok t ∧ t.sp = s.sp + vals.length ∧
        ∀ j : Nat, t.stack j =
          if s.sp ≤ j ∧ j < s.sp + vals.length then vals.getD (j - s.sp) 0
          else s.stack j := by
  intro vals
  induction vals with
  | nil =>
    intro s h
    refine ⟨s, rfl, by simp, fun j => ?_⟩
    rw [if_neg (by simp only [List.length_nil]; omega)]
  | cons v rest ih =>
    intro s h
    simp only [List.length_cons] at h
    have hsp : ¬ s.sp ≥ 16 := by omega
    have hstep : s.push_stack v =
        (.ok true,
         { s with stack := Function.update s.stack s.sp v, sp := s.sp + 1 }) := by
      simp [Chip8.push_stack, hsp]
    obtain ⟨t, ht, htsp, htstack⟩ :=
      ih { s with stack := Function.update s.stack s.sp v, sp := s.sp + 1 }
        (by simp only []; omega)
    refine ⟨t, ?_, ?_, fun j => ?_⟩
    · simp only [Chip8.pushList]
      rw [hstep]
      exact ht
    · rw [htsp]
      simp only [List.length_cons]
      omega
    · rw [htstack j]
      simp only [List.length_cons, Function.update_apply]
      split_ifs <;>
        first
          | rfl
          | (exfalso; omega)
          | (have hj2 : j - s.sp = j - (s.sp + 1) + 1 := by omega
             rw [hj2, List.getD_cons_succ])
          | (have hj0 : j - s.sp = 0 := by omega
             rw [hj0, List.getD_cons_zero])

/-- Characterization of popping `n` times while the stack is deep enough:
every pop succeeds and the stack pointer goes down by `n`. -/
theorem Chip8.popN_spec :
    ∀ (n : Nat) (s : Chip8), n ≤ s.sp →
      ∃ t : Chip8, s.popN n = .ok t ∧ t.sp = s.sp - n := by
  intro n
  induction n with
  | zero =>
    intro s h
    exact ⟨s, rfl, by omega⟩
  | succ k ih =>
    intro s h
    have hne : ¬ s.sp = 0 := by omega
    have hstep : s.pop_stack = (.ok true, { s with sp := s.sp - 1 }) := by
      simp [Chip8.pop_stack, hne]
    obtain ⟨t, ht, htsp⟩ := ih { s with sp := s.sp - 1 } (by simp only []; omega)
    refine ⟨t, ?_, ?_⟩
    · simp only [Chip8.popN]
      rw [hstep]
      exact ht
    · rw [htsp]
      simp only []
      omega

/-- C4: from any state of stack depth 0, pushing any 16 values succeeds with
each value stored at the slot the pointer held when it was pushed and the
pointer ending at 16; a 17th push fails with StackOverflow; popping at depth 0
fails with StackUnderflow; 16 pops after the 16 pushes bring the depth back to
0 and a further push then succeeds (incrementing the pointer to 1). -/
theorem stack_full_cycle (s : Chip8) (vals : List Nat) (w : Nat)
    (h0 : s.sp = 0) (hlen : vals.length = 16) :
    ∃ t : Chip8, s.pushList vals = .ok t ∧ t.sp = 16 ∧
      (∀ j, j < 16 → t.stack j = vals.getD j 0) ∧
      (t.push_stack w).1 = .error Chip8Error.StackOverflow ∧
      s.pop_stack.1 = .error Chip8Error.StackUnderflow ∧
      ∃ u : Chip8, t.popN 16 = .ok u ∧ u.sp = 0 ∧
        (u.push_stack w).1 = .ok true ∧ (u.push_stack w).2.sp = 1 := by
  obtain ⟨t, ht, htsp, htstack⟩ := Chip8.pushList_spec vals s (by omega)
  have htsp16 : t.sp = 16 := by omega
  obtain ⟨u, hu, husp⟩ := Chip8.popN_spec 16 t (by omega)
  have husp0 : u.sp = 0 := by omega
  refine ⟨t, ht, htsp16, fun j hj => ?_, ?_, ?_, u, hu, husp0, ?_, ?_⟩
  · rw [htstack j, if_pos (by omega : s.sp ≤ j ∧ j < s.sp + vals.length), h0]
    simp
  · simp [Chip8.push_stack, htsp16]
  · simp [Chip8.pop_stack, h0]
  · simp [Chip8.push_stack, husp0]
  · simp [Chip8.push_stack, husp0]

/-- C4 witness: the full push/overflow/underflow/pop cycle at the initial
state with the 16 values 0..15 and extra value 99. -/
theorem stack_full_cycle_witness :
    Chip8.new.sp = 0 ∧ (List.range 16).length = 16 ∧
    (∃ t : Chip8, Chip8.new.pushList (List.range 16) = .ok t ∧ t.sp = 16 ∧
      (∀ j, j < 16 → t.stack j = (List.range 16).getD j 0) ∧
      (t.push_stack 99).1 = .error Chip8Error.StackOverflow ∧
      Chip8.new.pop_stack.1 = .error Chip8Error.StackUnderflow ∧
      ∃ u : Chip8, t.popN 16 = .ok u ∧ u.sp = 0 ∧
        (u.push_stack 99).1 = .ok true ∧ (u.push_stack 99).2.sp = 1) :=
  ⟨rfl, by decide, stack_full_cycle Chip8.new (List.range 16) 99 rfl (by decide)⟩

/-- A renderer whose logical framebuffer and device buffer are all zero. -/
def displayZero : Display where
  display := fun _ => 0
  buffer := fun _ => 0

/-- C10: on equal pixel arrays, Chip8::get_pixel/set_pixel and
Display::get_pixel/set_pixel are behaviorally equivalent — same
success/failure domains (index ≥ 2048 rejected first, then value ∉ {0,1}
rejected at valid indices), same read results, and the same resulting pixel
array, with failing calls leaving each state unchanged. -/
theorem pixel_accessors_equivalent (c : Chip8) (d : Display)
    (h : c.display = d.display) (idx val : Nat) :
    (idx ≥ 64 * 32 →
      c.get_pixel idx = .error Chip8Error.InvalidPixelAccess ∧
      d.get_pixel idx = .error DisplayError.InvalidPixelAccess ∧
      c.set_pixel idx val = (.error Chip8Error.InvalidPixelAccess, c) ∧
      d.set_pixel idx val = (.error DisplayError.InvalidPixelAccess, d)) ∧
    (idx < 64 * 32 →
      c.get_pixel idx = .ok (d.display idx) ∧
      d.get_pixel idx = .ok (d.display idx)) ∧
    (idx < 64 * 32 → (val = 1 ∨ val = 0) →
      (c.set_pixel idx val).1 = .ok true ∧
      (d.set_pixel idx val).1 = .ok true ∧
      (c.set_pixel idx val).2.display = Function.update d.display idx val ∧
      (d.set_pixel idx val).2.display = Function.update d.display idx val) ∧
    (idx < 64 * 32 → val ≠ 1 → val ≠ 0 →
      c.set_pixel idx val = (.error Chip8Error.InvalidPixelValue, c) ∧
      d.set_pixel idx val = (.error DisplayError.InvalidPixelValue, d)) := by
  refine ⟨fun hge => ?_, fun hlt => ?_, fun hlt hv => ?_, fun hlt hv1 hv0 => ?_⟩
  · simp [Chip8.get_pixel, Chip8.set_pixel, Display.get_pixel, Display.set_pixel, hge]
  · simp [Chip8.get_pixel, Display.get_pixel, show ¬ idx ≥ 64 * 32 by omega, h]
  · have hn : ¬ idx ≥ 64 * 32 := by omega
    rcases hv with rfl | rfl <;>
      simp [Chip8.set_pixel, Display.set_pixel, hn, h]
  · simp [Chip8.set_pixel, Display.set_pixel, show ¬ idx ≥ 64 * 32 by omega,
      hv1, hv0]

/-- C10 witness: both accessor families agree at index 5 on the all-zero pixel
array: reads return 0, writing 1 succeeds on both with the same updated array,
index 3000 is rejected by both, and value 2 is rejected by both. -/
theorem pixel_accessors_equivalent_witness :
    (Chip8.new.get_pixel 5 = .ok (displayZero.display 5) ∧
      displayZero.get_pixel 5 = .ok (displayZero.display 5)) ∧
    ((Chip8.new.set_pixel 5 1).1 = .ok true ∧
      (displayZero.set_pixel 5 1).1 = .ok true ∧
      (Chip8.new.set_pixel 5 1).2.display = Function.update displayZero.display 5 1 ∧
      (displayZero.set_pixel 5 1).2.display = Function.update displayZero.display 5 1) ∧
    (Chip8.new.set_pixel 3000 1 = (.error Chip8Error.InvalidPixelAccess, Chip8.new) ∧
      displayZero.set_pixel 3000 1 = (.error DisplayError.InvalidPixelAccess, displayZero)) ∧
    (Chip8.new.set_pixel 5 2 = (.error Chip8Error.InvalidPixelValue, Chip8.new) ∧
      displayZero.set_pixel 5 2 = (.error DisplayError.InvalidPixelValue, displayZero)) :=
  ⟨(pixel_accessors_equivalent Chip8.new displayZero rfl 5 1).2.1 (by decide),
   (pixel_accessors_equivalent Chip8.new displayZero rfl 5 1).2.2.1 (by decide)
     (by decide),
   (fun hx => ⟨hx.2.2.1, hx.2.2.2⟩)
     ((pixel_accessors_equivalent Chip8.new displayZero rfl 3000 1).1 (by decide)),
   (pixel_accessors_equivalent Chip8.new displayZero rfl 5 2).2.2.2 (by decide)
     (by decide) (by decide)⟩

/-! ## Renderer lemmas -/

/-- Pointwise effect of the innermost render loop: a run of SCALE device
pixels starting at `start` takes the color, everything else is untouched. -/
theorem fillRow_apply (color start : Nat) (buf : Nat → Nat) (j : Nat) :
    fillRow color start buf j =
      if start ≤ j ∧ j < start + SCALE then color else buf j := by
  have aux : ∀ (n : Nat) (b : Nat → Nat),
      ((List.range n).foldl (fun b dx => Function.update b (start + dx) color) b) j =
        if start ≤ j ∧ j < start + n then color else b j := by
    intro n
    induction n with
    | zero =>
      intro b
      rw [List.range_zero, List.foldl_nil, if_neg (by omega)]
    | succ k ih =>
      intro b
      rw [List.range_succ, List.foldl_append, List.foldl_cons, List.foldl_nil,
        Function.update_apply, ih b]
      split_ifs <;> first | rfl | (exfalso; omega)
  simp only [fillRow]
  exact aux SCALE buf

/-- Pointwise effect of the dy loop: the whole SCALE×SCALE device block of
logical pixel (x,y) takes the color, everything else is untouched. -/
theorem fillBlock_apply (color y x : Nat) (hx : x < 64) (buf : Nat → Nat) (j : Nat) :
    fillBlock color y x buf j =
      if y * SCALE ≤ j / WIDTH ∧ j / WIDTH < y * SCALE + SCALE ∧
          x * SCALE ≤ j % WIDTH ∧ j % WIDTH < x * SCALE + SCALE then color
      else buf j := by
  have aux : ∀ (n : Nat), n ≤ SCALE → ∀ b : Nat → Nat,
      ((List.range n).foldl
        (fun b dy => fillRow color ((y * SCALE + dy) * WIDTH + x * SCALE) b) b) j =
        if y * SCALE ≤ j / WIDTH ∧ j / WIDTH < y * SCALE + n ∧
            x * SCALE ≤ j % WIDTH ∧ j % WIDTH < x * SCALE + SCALE then color
        else b j := by
    intro n
    induction n with
    | zero =>
      intro _ b
      rw [List.range_zero, List.foldl_nil, if_neg (by omega)]
    | succ k ih =>
      intro hk b
      rw [List.range_succ, List.foldl_append, List.foldl_cons, List.foldl_nil,
        fillRow_apply, ih (by omega) b]
      simp only [SCALE, WIDTH] at *
      split_ifs <;> first | rfl | (exfalso; omega)
  simp only [fillBlock]
  exact aux SCALE (Nat.le_refl SCALE) buf

/-- Pointwise effect of the x loop: every device pixel in the SCALE rows of
logical row `y` takes the color of the logical pixel its column falls in,
everything else is untouched. -/
theorem fillLine_apply (disp : Nat → Nat) (y : Nat) (buf : Nat → Nat) (j : Nat) :
    fillLine disp y buf j =
      if y * SCALE ≤ j / WIDTH ∧ j / WIDTH < y * SCALE + SCALE then
        (if disp (y * 64 + j % WIDTH / SCALE) = 1 then 0xFFB000 else 0x000000)
      else buf j := by
  have aux : ∀ (n : Nat), n ≤ 64 → ∀ b : Nat → Nat,
      ((List.range n).foldl
        (fun b x =>
          fillBlock (if disp (y * 64 + x) = 1 then 0xFFB000 else 0x000000) y x b) b) j =
        if y * SCALE ≤ j / WIDTH ∧ j / WIDTH < y * SCALE + SCALE ∧
            j % WIDTH < n * SCALE then
          (if disp (y * 64 + j % WIDTH / SCALE) = 1 then 0xFFB000 else 0x000000)
        else b j := by
    intro n
    induction n with
    | zero =>
      intro _ b
      rw [List.range_zero, List.foldl_nil,
        if_neg (by simp only [SCALE, WIDTH]; omega)]
    | succ k ih =>
      intro hk b
      rw [List.range_succ, List.foldl_append, List.foldl_cons, List.foldl_nil,
        fillBlock_apply _ y k (by omega), ih (by omega) b]
      by_cases hin : k * SCALE ≤ j % WIDTH ∧ j % WIDTH < k * SCALE + SCALE ∧
          y * SCALE ≤ j / WIDTH ∧ j / WIDTH < y * SCALE + SCALE
      · have hk20 : j % WIDTH / SCALE = k := by
          simp only [SCALE, WIDTH] at hin ⊢
          omega
        rw [hk20]
        simp only [SCALE, WIDTH] at *
        split_ifs <;> first | rfl | (exfalso; omega)
      · simp only [SCALE, WIDTH] at *
        split_ifs <;> first | rfl | (exfalso; omega)
  simp only [fillLine]
  have h64 : j % WIDTH < 64 * SCALE := by
    simp only [SCALE, WIDTH]
    omega
  rw [aux 64 (Nat.le_refl 64) buf]
  split_ifs <;> first | rfl | (exfalso; omega)

/-- Pointwise effect of the full render loop nest: every device pixel inside
the WIDTH×HEIGHT buffer receives the color of the logical pixel whose
SCALE×SCALE block it lies in; indices beyond the buffer are untouched. -/
theorem renderBuffer_apply (disp : Nat → Nat) (buf : Nat → Nat) (j : Nat) :
    renderBuffer disp buf j =
      if j < WIDTH * HEIGHT then
        (if disp (j / WIDTH / SCALE * 64 + j % WIDTH / SCALE) = 1 then 0xFFB000
         else 0x000000)
      else buf j := by
  have aux : ∀ (n : Nat), n ≤ 32 → ∀ b : Nat → Nat,
      ((List.range n).foldl (fun b y => fillLine disp y b) b) j =
        if j / WIDTH < n * SCALE then
          (if disp (j / WIDTH / SCALE * 64 + j % WIDTH / SCALE) = 1 then 0xFFB000
           else 0x000000)
        else b j := by
    intro n
    induction n with
    | zero =>
      intro _ b
      rw [List.range_zero, List.foldl_nil,
        if_neg (by simp only [SCALE, WIDTH]; omega)]
    | succ k ih =>
      intro hk b
      rw [List.range_succ, List.foldl_append, List.foldl_cons, List.foldl_nil,
        fillLine_apply, ih (by omega) b]
      by_cases hin : k * SCALE ≤ j / WIDTH ∧ j / WIDTH < k * SCALE + SCALE
      · have hky : j / WIDTH / SCALE = k := by
          simp only [SCALE, WIDTH] at hin ⊢
          omega
        rw [hky]
        simp only [SCALE, WIDTH] at *
        split_ifs <;> first | rfl | (exfalso; omega)
      · simp only [SCALE, WIDTH] at *
        split_ifs <;> first | rfl | (exfalso; omega)
  simp only [renderBuffer]
  rw [aux 32 (Nat.le_refl 32) buf]
  have hiff : j / WIDTH < 32 * SCALE ↔ j < WIDTH * HEIGHT := by
    simp only [SCALE, WIDTH, HEIGHT]
    omega
  split_ifs <;> first | rfl | (exfalso; omega)

/-- A renderer whose logical framebuffer has pixel (0,0) set to 1 and every
other pixel 0, with an all-zero device buffer. -/
def displayTopLeft : Display where
  display := fun idx => if idx = 0 then 1 else 0
  buffer := fun _ => 0

/-- C8: Display::render writes, for every logical pixel (x,y) of the 64×32
grid, the foreground color 0xFFB000 (pixel = 1) or the background color
0x000000 (pixel ≠ 1) into every device pixel of the corresponding SCALE×SCALE
block of the device buffer; and with only pixel (0,0) lit, every device pixel
of the top-left SCALE×SCALE block is foreground and every other device pixel
of the buffer is background. -/
theorem render_scaled_blocks (d : Display) (x y dx dy : Nat)
    (hx : x < 64) (hy : y < 32) (hdx : dx < SCALE) (hdy : dy < SCALE) :
    (d.render.buffer ((y * SCALE + dy) * WIDTH + (x * SCALE + dx)) =
      if d.display (y * 64 + x) = 1 then 0xFFB000 else 0x000000) ∧
    (d.display = (fun idx => if idx = 0 then 1 else 0) →
      ∀ devY devX : Nat, devY < HEIGHT → devX < WIDTH →
        d.render.buffer (devY * WIDTH + devX) =
          if devY < SCALE ∧ devX < SCALE then 0xFFB000 else 0x000000) := by
  constructor
  · simp only [Display.render]
    rw [renderBuffer_apply]
    have h1 : (y * SCALE + dy) * WIDTH + (x * SCALE + dx) < WIDTH * HEIGHT := by
      simp only [SCALE, WIDTH, HEIGHT] at *
      omega
    rw [if_pos h1]
    have h2 : ((y * SCALE + dy) * WIDTH + (x * SCALE + dx)) / WIDTH / SCALE = y := by
      simp only [SCALE, WIDTH] at *
      omega
    have h3 : ((y * SCALE + dy) * WIDTH + (x * SCALE + dx)) % WIDTH / SCALE = x := by
      simp only [SCALE, WIDTH] at *
      omega
    rw [h2, h3]
  · intro hdisp devY devX hY hX
    simp only [Display.render]
    rw [renderBuffer_apply]
    rw [if_pos (show devY * WIDTH + devX < WIDTH * HEIGHT by
      simp only [SCALE, WIDTH, HEIGHT] at *
      omega)]
    have hq : (devY * WIDTH + devX) / WIDTH / SCALE = devY / SCALE := by
      simp only [SCALE, WIDTH] at *
      omega
    have hr : (devY * WIDTH + devX) % WIDTH / SCALE = devX / SCALE := by
      simp only [SCALE, WIDTH] at *
      omega
    rw [hdisp, hq, hr]
    simp only []
    by_cases h0 : devY / SCALE * 64 + devX / SCALE = 0
    · have hband : devY < SCALE ∧ devX < SCALE := by
        simp only [SCALE] at h0 ⊢
        omega
      simp [h0, hband]
    · have hband : ¬ (devY < SCALE ∧ devX < SCALE) := by
        simp only [SCALE] at h0 ⊢
        omega
      simp [h0, hband]

/-- C8 witness: on the framebuffer with only pixel (0,0) lit, the device pixel
at the origin of the (0,0) block gets the foreground color of that pixel, and
device pixel (devY, devX) = (21, 350) — outside the top-left block — gets the
background color. -/
theorem render_scaled_blocks_witness :
    (displayTopLeft.render.buffer ((0 * SCALE + 0) * WIDTH + (0 * SCALE + 0)) =
      if displayTopLeft.display (0 * 64 + 0) = 1 then 0xFFB000 else 0x000000) ∧
    displayTopLeft.render.buffer (21 * WIDTH + 350) =
      if 21 < SCALE ∧ 350 < SCALE then 0xFFB000 else 0x000000 :=
  ⟨(render_scaled_blocks displayTopLeft 0 0 0 0 (by decide) (by decide)
      (by decide) (by decide)).1,
   (render_scaled_blocks displayTopLeft 0 0 0 0 (by decide) (by decide)
      (by decide) (by decide)).2 rfl 21 350 (by decide) (by decide)⟩
